import Mathlib

/-
Verification development for the langgraph_agent_chatbot service layer.

Shallow embedding of the stage orchestration engine (src/app/agent/agent.py),
the ability handlers (src/app/abilities/implementations.py) and the bounded
retry wrapper of the capability client (src/app/mcp/clients.py).

Python dicts of known shape are embedded as Lean structures whose fields are
the keys touched by the code; a key that may be absent (or whose value may be
Python None, which `dict.get` conflates with absence) is an `Option`.
External effects are made explicit: capability-call results, the random
jitter and the wall clock are streams supplied by an `ExtEnv`, consumed
through counters carried in `WState`; each handler invocation and each
outbound capability call is recorded as an `Event` so that invocation order
and call counts are part of the semantics.
-/

namespace LGAgent

/-- The keys of the caller payload dict that the service code reads or writes
(src/app/abilities/implementations.py). `none` models an absent key (or a
key whose value is Python None). -/
structure Payload where
  query : Option String := none
  priority : Option String := none
  ticket_id : Option String := none
  customer_name : Option String := none
  status : Option String := none
deriving Repr, DecidableEq

/-- An empty dict for payload-typed values. -/
def Payload.empty : Payload := {}

/-- Python dict.update for a single optional key: the new dict's binding wins
when present. -/
def ovr (old new : Option String) : Option String :=
  match new with
  | some v => some v
  | none => old

/-- state["payload"].update(other) over the payload keys. -/
def Payload.update (p q : Payload) : Payload :=
  { query := ovr p.query q.query
    priority := ovr p.priority q.priority
    ticket_id := ovr p.ticket_id q.ticket_id
    customer_name := ovr p.customer_name q.customer_name
    status := ovr p.status q.status }

/-- Result of parse_request_text: the dict with keys len and words. -/
structure Parsed where
  len : Nat
  words : List String
deriving Repr, DecidableEq

/-- The state["decision"] dict: score, and escalated_to (whose stored value
may itself be None, hence the nested Option). -/
structure Decision where
  score : Option Int := none
  escalated_to : Option (Option String) := none
deriving Repr, DecidableEq

/-- An empty decision dict, the default of state.get("decision", {}). -/
def Decision.empty : Decision := {}

/-- The keys the handlers read from a capability-call response body via
resp.get(...). -/
structure Resp where
  entities : Option (List (String × String)) := none
  enrichment : Option (List (String × String)) := none
  prompt : Option String := none
  answer : Option String := none
  kb_hits : Option (List String) := none
  assigned_to : Option String := none
deriving Repr, DecidableEq

/-- The update_fields dict built by update_ticket. -/
structure UpdateFields where
  status : String
  priority : Option String
  assigned_to : Option String
deriving Repr, DecidableEq

/-- The request body of each capability-call site, one constructor per shape
of dict passed to atlas_client.call in implementations.py. -/
inductive CallArg where
  | payload (p : Payload)
  | clarify (missing_fields : List String) (p : Payload)
  | kbQuery (query : Option String)
  | ticketUpdate (ticket_id : Option String) (update_fields : UpdateFields)
  | ticketClose (ticket_id : Option String)
deriving Repr, DecidableEq

/-- Observable events of a run: a handler invocation by the engine, an
outbound capability call, and the end-of-run persistence attempt. -/
inductive Event where
  | invoke (name : String)
  | extCall (name : String) (arg : CallArg)
  | persist (ok : Bool)
deriving Repr, DecidableEq

/-- Errors of a single capability call (src/app/mcp/clients.py): a
transport-class exception (httpx.TransportError / httpx.RequestError), or
the client's own MCPClientError raised for a status >= 500. -/
inductive CallErr where
  | transport (msg : String)
  | clientError (status : Nat)
deriving Repr, DecidableEq

/-- A Python exception escaping a handler: a capability-call error, or a
KeyError on a missing state key. -/
inductive PyErr where
  | mcp (e : CallErr)
  | keyError (key : String)
deriving Repr, DecidableEq

/-- The central mutable state dict of a run: the payload plus the keys that
abilities add (agent.py builds it as {"payload": dict(input_payload)}). -/
structure RunState where
  payload : Payload
  parsed : Option Parsed := none
  entities : Option (List (String × String)) := none
  enrichment : Option (List (String × String)) := none
  flags : Option Bool := none
  pending_clarification : Option (Option String) := none
  answers : Option (List (Option String)) := none
  latest_answer : Option (Option String) := none
  kb : Option (List String) := none
  decision : Option Decision := none
  audit : Option (List (Decision × Nat)) := none
  generated_response : Option String := none
deriving Repr, DecidableEq

/-- The result dict an ability returns to the engine; one optional field per
key that some handler puts in its result. `raw` is a handler returning the
capability response verbatim. -/
structure AbilityRes where
  status : Option String := none
  parsed : Option Parsed := none
  entities : Option (List (String × String)) := none
  prompt : Option String := none
  answer : Option String := none
  score : Option Int := none
  assigned_to : Option String := none
  response : Option String := none
  final_payload : Option RunState := none
  raw : Option Resp := none
deriving Repr, DecidableEq

/-- One entry of the engine's append-only logs list, one constructor per
logs.append site in LangGraphAgent.run. -/
inductive LogEntry where
  | stageHeader (name mode : String)
  | abilityMarker (name : String)
  | missingImpl (name : String)
  | resLine (r : AbilityRes)
  | solutionScore (score : Option Int)
  | escalation (r : AbilityRes)
  | skipEscalation
  | fallbackRes (name : String) (r : AbilityRes)
  | unknownMode (mode : String)
  | errorLine (e : PyErr)
deriving Repr, DecidableEq

/-- Counters into the external streams, plus the ordered event trace. -/
structure WState where
  callIdx : Nat := 0
  rngIdx : Nat := 0
  timeIdx : Nat := 0
  events : List Event := []
deriving Repr, DecidableEq

/-- The run's externals: the outcome of each successive capability call, the
successive random.randint(-3, 3) draws, and the successive time.time()
readings. -/
structure ExtEnv where
  calls : Nat → Except CallErr Resp
  jitter : Nat → Int
  clock : Nat → Nat

/-- An environment in which every capability call eventually returns a
response (no attempt-exhaustion and no non-retryable failure surfaces). -/
def okOracle (env : ExtEnv) : Prop :=
  ∀ n, ∃ r, env.calls n = Except.ok r

/-- The kwargs the engine passes to a handler. -/
structure Extra where
  input_payload : Option Payload := none
  simulate_human_answer : Option String := none
  missing_fields : List String := []

/-- An ability handler: reads the externals, the shared state and its kwargs,
returns its result dict and the updated state, or raises. -/
def Handler : Type :=
  ExtEnv → RunState → Extra → WState → Except PyErr (AbilityRes × RunState) × WState

/-- One capability call as seen from a handler (the client's retry loop has
already run; its net outcome is the next element of env.calls). The call is
recorded as an extCall event whether it succeeds or raises. -/
def doCall (env : ExtEnv) (nm : String) (arg : CallArg) (w : WState) :
    Except PyErr Resp × WState :=
  let w2 : WState :=
    { w with callIdx := w.callIdx + 1, events := w.events ++ [Event.extCall nm arg] }
  match env.calls w.callIdx with
  | Except.ok r => (Except.ok r, w2)
  | Except.error e => (Except.error (PyErr.mcp e), w2)

/-- Python truthiness of an optional string (None and "" are falsy). -/
def pyTruthy (o : Option String) : Bool :=
  match o with
  | some v => v != ""
  | none => false

/-- str(x) of an optional string under f-string interpolation (None prints
as "None"). -/
def optStr (o : Option String) : String :=
  match o with
  | some v => v
  | none => "None"

/-- Python str.upper() (character-wise uppercasing). -/
def pyUpper (s : String) : String := ⟨s.data.map Char.toUpper⟩

/-- Helper for pySplit: gather maximal runs of non-space characters
(acc holds the current word reversed). -/
def wordsAux : List Char → List Char → List String
  | [], acc => if acc.isEmpty then [] else [⟨acc.reverse⟩]
  | c :: cs, acc =>
    if c = ' ' then
      if acc.isEmpty then wordsAux cs [] else ⟨acc.reverse⟩ :: wordsAux cs []
    else wordsAux cs (c :: acc)

/-- Python str.split() modelled on ASCII spaces: maximal nonempty runs of
non-space characters, leading/trailing separators dropped. -/
def pySplit (s : String) : List String := wordsAux s.data []

/-- Python dict.update on a string-keyed dict of strings. -/
def dictUpd (old new : List (String × String)) : List (String × String) :=
  old.filter (fun kv => !(new.any (fun kv2 => kv2.1 == kv.1))) ++ new

/-! ### Ability handlers (src/app/abilities/implementations.py) -/

/-- accept_payload: state["payload"].update(input_payload). -/
def accept_payload : Handler := fun _ s ex w =>
  (Except.ok ({ status := some "ok" },
    { s with payload := s.payload.update (ex.input_payload.getD Payload.empty) }), w)

/-- parse_request_text: parsed = {len, words} from payload.query (default "");
state.setdefault("parsed", {}).update(parsed) overwrites both keys, so the
stored dict equals parsed. -/
def parse_request_text : Handler := fun _ s _ w =>
  let q := s.payload.query.getD ""
  let parsed : Parsed := { len := q.length, words := pySplit q }
  (Except.ok ({ status := some "ok", parsed := some parsed },
    { s with parsed := some parsed }), w)

/-- extract_entities: atlas call, then state.setdefault("entities", {})
.update(resp.get("entities", {})). -/
def extract_entities : Handler := fun env s _ w =>
  match doCall env "extract_entities" (CallArg.payload s.payload) w with
  | (Except.error e, w2) => (Except.error e, w2)
  | (Except.ok resp, w2) =>
    let entities := resp.entities.getD []
    (Except.ok ({ status := some "ok", entities := some entities },
      { s with entities := some (dictUpd (s.entities.getD []) entities) }), w2)

/-- normalize_fields: priority = (p.get("priority") or "NORMAL").upper();
if p.get("ticket_id") (truthy): ticket_id = str(ticket_id).upper(). -/
def normalize_fields : Handler := fun _ s _ w =>
  let pr := match s.payload.priority with
    | some v => if v = "" then "NORMAL" else v
    | none => "NORMAL"
  let p1 := { s.payload with priority := some (pyUpper pr) }
  let p2 := if pyTruthy p1.ticket_id then
      { p1 with ticket_id := p1.ticket_id.map pyUpper }
    else p1
  (Except.ok ({ status := some "ok" }, { s with payload := p2 }), w)

/-- enrich_records: atlas call, then state.setdefault("enrichment", {})
.update(resp.get("enrichment", {})). -/
def enrich_records : Handler := fun env s _ w =>
  match doCall env "enrich_records" (CallArg.payload s.payload) w with
  | (Except.error e, w2) => (Except.error e, w2)
  | (Except.ok resp, w2) =>
    (Except.ok ({ status := some "ok" },
      { s with enrichment := some (dictUpd (s.enrichment.getD []) (resp.enrichment.getD [])) }),
     w2)

/-- add_flags_calculations: flags.sla_risk = (priority == "HIGH"), with
priority = payload.get("priority", "NORMAL"). -/
def add_flags_calculations : Handler := fun _ s _ w =>
  let priority := s.payload.priority.getD "NORMAL"
  (Except.ok ({ status := some "ok" }, { s with flags := some (priority == "HIGH") }), w)

/-- clarify_question: atlas call with {"missing_fields": missing, **payload};
stores resp.get("prompt") under pending_clarification.prompt. -/
def clarify_question : Handler := fun env s ex w =>
  match doCall env "clarify_question" (CallArg.clarify ex.missing_fields s.payload) w with
  | (Except.error e, w2) => (Except.error e, w2)
  | (Except.ok resp, w2) =>
    (Except.ok ({ status := some "ok", prompt := resp.prompt },
      { s with pending_clarification := some resp.prompt }), w2)

/-- The external-call branch of extract_answer (taken when the simulated
answer is absent or falsy). -/
def extract_answer_ext (env : ExtEnv) (s : RunState) (w : WState) :
    Except PyErr (AbilityRes × RunState) × WState :=
  match doCall env "extract_answer" (CallArg.payload s.payload) w with
  | (Except.error e, w2) => (Except.error e, w2)
  | (Except.ok resp, w2) =>
    (Except.ok ({ status := some "ok", answer := resp.answer },
      { s with answers := some (s.answers.getD [] ++ [resp.answer]) }), w2)

/-- extract_answer: `if simulated:` (Python truthiness, so an absent or
empty simulated answer falls through to the external call); when truthy,
resp = {"answer": simulated} and resp.get("answer") — the simulated value
itself — is appended to state.answers. -/
def extract_answer : Handler := fun env s ex w =>
  if pyTruthy ex.simulate_human_answer then
    (Except.ok ({ status := some "ok", answer := ex.simulate_human_answer },
      { s with answers := some (s.answers.getD [] ++ [ex.simulate_human_answer]) }), w)
  else extract_answer_ext env s w

/-- store_answer: latest_answer = answers[-1] if answers else None. -/
def store_answer : Handler := fun _ s _ w =>
  let answers := s.answers.getD []
  (Except.ok ({ status := some "ok" },
    { s with latest_answer := some (answers.getLast?.getD none) }), w)

/-- knowledge_base_search: atlas call with {"query": payload.query};
kb.hits = resp.get("kb_hits", []). -/
def knowledge_base_search : Handler := fun env s _ w =>
  match doCall env "knowledge_base_search" (CallArg.kbQuery s.payload.query) w with
  | (Except.error e, w2) => (Except.error e, w2)
  | (Except.ok resp, w2) =>
    (Except.ok ({ status := some "ok" }, { s with kb := some (resp.kb_hits.getD []) }), w2)

/-- store_data: no-op, returns ok. -/
def store_data : Handler := fun _ s _ w =>
  (Except.ok ({ status := some "ok" }, s), w)

/-- The score computed by solution_evaluation: base = 70 + min(20, kb_hits*10),
minus 10 when priority == "HIGH", plus the next jitter draw, clamped by
max(0, min(100, .)). -/
def scoreVal (env : ExtEnv) (s : RunState) (w : WState) : Int :=
  let kb_hits : Nat := (s.kb.getD []).length
  let base : Int := 70 + min 20 ((kb_hits : Int) * 10)
  let base := if s.payload.priority = some "HIGH" then base - 10 else base
  max 0 (min 100 (base + env.jitter w.rngIdx))

/-- solution_evaluation: stores the score under decision.score (creating the
decision dict if absent) and returns {"score": score}; consumes one jitter
draw. -/
def solution_evaluation : Handler := fun env s _ w =>
  let score := scoreVal env s w
  (Except.ok ({ score := some score },
    { s with decision := some { s.decision.getD Decision.empty with score := some score } }),
   { w with rngIdx := w.rngIdx + 1 })

/-- escalation_decision: score = decision.get("score", 100) with decision
defaulting to {}; below 90 it calls the escalation capability and stores
resp.get("assigned_to") under decision.escalated_to (a KeyError if the
decision dict is absent, which the 100 default makes unreachable); otherwise
it returns {"status": "not_escalated"} untouched. -/
def escalation_decision : Handler := fun env s _ w =>
  let score := (s.decision.getD Decision.empty).score.getD 100
  if score < 90 then
    match doCall env "escalation_decision" (CallArg.payload s.payload) w with
    | (Except.error e, w2) => (Except.error e, w2)
    | (Except.ok resp, w2) =>
      match s.decision with
      | some d =>
        (Except.ok ({ status := some "escalated", assigned_to := resp.assigned_to },
          { s with decision := some { d with escalated_to := some resp.assigned_to } }), w2)
      | none => (Except.error (PyErr.keyError "decision"), w2)
  else
    (Except.ok ({ status := some "not_escalated" }, s), w)

/-- update_payload: appends {"decision": state.get("decision", {}),
"ts": time.time()} to state.audit; consumes one clock reading. -/
def update_payload : Handler := fun env s _ w =>
  let t := env.clock w.timeIdx
  (Except.ok ({ status := some "ok" },
    { s with audit := some (s.audit.getD [] ++ [(s.decision.getD Decision.empty, t)]) }),
   { w with timeIdx := w.timeIdx + 1 })

/-- update_ticket: unconditionally calls the update capability with
update_fields = {"status": "in_progress", "priority": payload.priority,
"assigned_to": decision.get("escalated_to")}; returns the response, state
unchanged. -/
def update_ticket : Handler := fun env s _ w =>
  let fields : UpdateFields :=
    { status := "in_progress"
      priority := s.payload.priority
      assigned_to := ((s.decision.getD Decision.empty).escalated_to).getD none }
  match doCall env "update_ticket" (CallArg.ticketUpdate s.payload.ticket_id fields) w with
  | (Except.error e, w2) => (Except.error e, w2)
  | (Except.ok resp, w2) => (Except.ok ({ raw := some resp }, s), w2)

/-- close_ticket: score = decision.get("score", 0); at 90 or above it calls
the close capability and sets payload.status = "closed"; below it returns
{"status": "not_closed"} and leaves the state unchanged. -/
def close_ticket : Handler := fun env s _ w =>
  let score := (s.decision.getD Decision.empty).score.getD 0
  if 90 ≤ score then
    match doCall env "close_ticket" (CallArg.ticketClose s.payload.ticket_id) w with
    | (Except.error e, w2) => (Except.error e, w2)
    | (Except.ok resp, w2) =>
      (Except.ok ({ raw := some resp },
        { s with payload := { s.payload with status := some "closed" } }), w2)
  else
    (Except.ok ({ status := some "not_closed" }, s), w)

/-- response_generation: templated reply from customer_name (falsy defaults
to "Customer") and the query. -/
def response_generation : Handler := fun _ s _ w =>
  let name := match s.payload.customer_name with
    | some v => if v = "" then "Customer" else v
    | none => "Customer"
  let reply := "Hi " ++ name ++ ",\n\nThanks for contacting support about: "
      ++ optStr s.payload.query ++ "\n\nRegards,\nSupport Team"
  (Except.ok ({ response := some reply }, { s with generated_response := some reply }), w)

/-- execute_api_calls: atlas call with the payload, response returned
verbatim. -/
def execute_api_calls : Handler := fun env s _ w =>
  match doCall env "execute_api_calls" (CallArg.payload s.payload) w with
  | (Except.error e, w2) => (Except.error e, w2)
  | (Except.ok resp, w2) => (Except.ok ({ raw := some resp }, s), w2)

/-- trigger_notifications: atlas call with the payload, response returned
verbatim. -/
def trigger_notifications : Handler := fun env s _ w =>
  match doCall env "trigger_notifications" (CallArg.payload s.payload) w with
  | (Except.error e, w2) => (Except.error e, w2)
  | (Except.ok resp, w2) => (Except.ok ({ raw := some resp }, s), w2)

/-- output_payload: returns {"final_payload": state}. -/
def output_payload : Handler := fun _ s _ w =>
  (Except.ok ({ final_payload := some s }, s), w)

/-! ### Stage model and engine (src/app/agent/agent.py) -/

/-- A declared ability of a stage. -/
structure StageAbility where
  name : String
  mcp : String
  prompt : String
deriving Repr, DecidableEq

/-- A stage of the graph. -/
structure Stage where
  name : String
  mode : String
  abilities : List StageAbility
  exec_rule : Option String := none
deriving Repr, DecidableEq

/-- ABILITY_LOOKUP: the name-to-handler registry. -/
def ABILITY_LOOKUP (n : String) : Option Handler :=
  if n = "accept_payload" then some accept_payload
  else if n = "parse_request_text" then some parse_request_text
  else if n = "extract_entities" then some extract_entities
  else if n = "normalize_fields" then some normalize_fields
  else if n = "enrich_records" then some enrich_records
  else if n = "add_flags_calculations" then some add_flags_calculations
  else if n = "clarify_question" then some clarify_question
  else if n = "extract_answer" then some extract_answer
  else if n = "store_answer" then some store_answer
  else if n = "knowledge_base_search" then some knowledge_base_search
  else if n = "store_data" then some store_data
  else if n = "solution_evaluation" then some solution_evaluation
  else if n = "escalation_decision" then some escalation_decision
  else if n = "update_payload" then some update_payload
  else if n = "update_ticket" then some update_ticket
  else if n = "close_ticket" then some close_ticket
  else if n = "response_generation" then some response_generation
  else if n = "execute_api_calls" then some execute_api_calls
  else if n = "trigger_notifications" then some trigger_notifications
  else if n = "output_payload" then some output_payload
  else none

/-- STAGE_CONFIG: the fixed stage graph. -/
def STAGE_CONFIG : List Stage := [
  { name := "INTAKE", mode := "deterministic",
    abilities := [⟨"accept_payload", "COMMON", "Accept payload"⟩] },
  { name := "UNDERSTAND", mode := "deterministic",
    abilities := [⟨"parse_request_text", "COMMON", "Parse text"⟩,
                  ⟨"extract_entities", "ATLAS", "Extract entities"⟩] },
  { name := "PREPARE", mode := "deterministic",
    abilities := [⟨"normalize_fields", "COMMON", "Normalize"⟩,
                  ⟨"enrich_records", "ATLAS", "Enrich"⟩,
                  ⟨"add_flags_calculations", "COMMON", "Flags"⟩] },
  { name := "ASK", mode := "human",
    abilities := [⟨"clarify_question", "ATLAS", "Clarify"⟩] },
  { name := "WAIT", mode := "deterministic",
    abilities := [⟨"extract_answer", "ATLAS", "Extract answer"⟩,
                  ⟨"store_answer", "COMMON", "Store answer"⟩] },
  { name := "RETRIEVE", mode := "deterministic",
    abilities := [⟨"knowledge_base_search", "ATLAS", "KB search"⟩,
                  ⟨"store_data", "COMMON", "Store KB"⟩] },
  { name := "DECIDE", mode := "non-deterministic",
    abilities := [⟨"solution_evaluation", "COMMON", "Score solutions"⟩,
                  ⟨"escalation_decision", "ATLAS", "Escalate if needed"⟩,
                  ⟨"update_payload", "COMMON", "Record decision"⟩],
    exec_rule := some "score_then_maybe_escalate" },
  { name := "UPDATE", mode := "deterministic",
    abilities := [⟨"update_ticket", "ATLAS", "Update ticket"⟩,
                  ⟨"close_ticket", "ATLAS", "Close ticket"⟩] },
  { name := "CREATE", mode := "deterministic",
    abilities := [⟨"response_generation", "COMMON", "Generate reply"⟩] },
  { name := "DO", mode := "deterministic",
    abilities := [⟨"execute_api_calls", "ATLAS", "Execute APIs"⟩,
                  ⟨"trigger_notifications", "ATLAS", "Notify"⟩] },
  { name := "COMPLETE", mode := "deterministic",
    abilities := [⟨"output_payload", "COMMON", "Output payload"⟩] }]

/-- The kwargs the engine builds for one ability: accept_payload receives the
original input payload, extract_answer receives the simulated answer. -/
def abilityExtra (input : Payload) (sim : Option String) (name : String) : Extra :=
  { input_payload := if name = "accept_payload" then some input else none
    simulate_human_answer := if name = "extract_answer" then sim else none }

/-- Invoking a resolved handler records an invoke event. -/
def callHandler (env : ExtEnv) (nm : String) (fn : Handler) (s : RunState) (ex : Extra)
    (w : WState) : Except PyErr (AbilityRes × RunState) × WState :=
  fn env s ex { w with events := w.events ++ [Event.invoke nm] }

/-- A run abort: the escaping exception together with the state and logs at
the moment it escaped (the except-branch of LangGraphAgent.run sees both). -/
def Fail : Type := PyErr × RunState × List LogEntry

/-- The ability loop of a deterministic or human stage: log the marker,
resolve the handler, log "missing impl" and continue when unresolved,
otherwise invoke with the per-ability kwargs and log the result. -/
def execAbilities (env : ExtEnv) (input : Payload) (sim : Option String) :
    List StageAbility → RunState → List LogEntry → WState →
    Except Fail (RunState × List LogEntry) × WState
  | [], s, logs, w => (Except.ok (s, logs), w)
  | a :: rest, s, logs, w =>
    let logs1 := logs ++ [LogEntry.abilityMarker a.name]
    match ABILITY_LOOKUP a.name with
    | none => execAbilities env input sim rest s (logs1 ++ [LogEntry.missingImpl a.name]) w
    | some fn =>
      match callHandler env a.name fn s (abilityExtra input sim a.name) w with
      | (Except.error e, w2) => (Except.error (e, s, logs1), w2)
      | (Except.ok (res, s2), w2) =>
        execAbilities env input sim rest s2 (logs1 ++ [LogEntry.resLine res]) w2

/-- The fixed protocol of the non-deterministic stage under exec_rule
"score_then_maybe_escalate": score, then escalate only below 90, then always
record the decision (whose result is not logged). -/
def execDecide (env : ExtEnv) (s : RunState) (logs : List LogEntry) (w : WState) :
    Except Fail (RunState × List LogEntry) × WState :=
  match callHandler env "solution_evaluation" solution_evaluation s {} w with
  | (Except.error e, w1) => (Except.error (e, s, logs), w1)
  | (Except.ok (res, s1), w1) =>
    let logs1 := logs ++ [LogEntry.solutionScore res.score]
    let score := (s1.decision.getD Decision.empty).score.getD 100
    if score < 90 then
      match callHandler env "escalation_decision" escalation_decision s1 {} w1 with
      | (Except.error e, w2) => (Except.error (e, s1, logs1), w2)
      | (Except.ok (res2, s2), w2) =>
        let logs2 := logs1 ++ [LogEntry.escalation res2]
        match callHandler env "update_payload" update_payload s2 {} w2 with
        | (Except.error e, w3) => (Except.error (e, s2, logs2), w3)
        | (Except.ok (_, s3), w3) => (Except.ok (s3, logs2), w3)
    else
      let logs2 := logs1 ++ [LogEntry.skipEscalation]
      match callHandler env "update_payload" update_payload s1 {} w1 with
      | (Except.error e, w2) => (Except.error (e, s1, logs2), w2)
      | (Except.ok (_, s2), w2) => (Except.ok (s2, logs2), w2)

/-- The fallback of an unknown exec_rule: run the declared abilities in order,
silently skipping unresolved names, logging each result. -/
def execFallback (env : ExtEnv) :
    List StageAbility → RunState → List LogEntry → WState →
    Except Fail (RunState × List LogEntry) × WState
  | [], s, logs, w => (Except.ok (s, logs), w)
  | a :: rest, s, logs, w =>
    match ABILITY_LOOKUP a.name with
    | none => execFallback env rest s logs w
    | some fn =>
      match callHandler env a.name fn s {} w with
      | (Except.error e, w2) => (Except.error (e, s, logs), w2)
      | (Except.ok (res, s2), w2) =>
        execFallback env rest s2 (logs ++ [LogEntry.fallbackRes a.name res]) w2

/-- One stage of the run loop: the stage header, then the mode dispatch of
LangGraphAgent.run. -/
def execStage (env : ExtEnv) (input : Payload) (sim : Option String) (st : Stage)
    (s : RunState) (logs : List LogEntry) (w : WState) :
    Except Fail (RunState × List LogEntry) × WState :=
  let logs0 := logs ++ [LogEntry.stageHeader st.name st.mode]
  if st.mode = "deterministic" ∨ st.mode = "human" then
    execAbilities env input sim st.abilities s logs0 w
  else if st.mode = "non-deterministic" then
    if st.exec_rule = some "score_then_maybe_escalate" then
      execDecide env s logs0 w
    else
      execFallback env st.abilities s logs0 w
  else
    (Except.ok (s, logs0 ++ [LogEntry.unknownMode st.mode]), w)

/-- The stage loop: stops at the first escaping exception. -/
def stageLoop (env : ExtEnv) (input : Payload) (sim : Option String) :
    List Stage → RunState → List LogEntry → WState →
    Except Fail (RunState × List LogEntry) × WState
  | [], s, logs, w => (Except.ok (s, logs), w)
  | st :: rest, s, logs, w =>
    match execStage env input sim st s logs w with
    | (Except.error f, w2) => (Except.error f, w2)
    | (Except.ok (s2, logs2), w2) => stageLoop env input sim rest s2 logs2 w2

/-- What a whole run yields: the returned value or re-raised exception, the
run record handed to _persist_run, whether that persistence attempt
succeeded, and the event trace. -/
structure RunResult where
  result : Except PyErr (RunState × List LogEntry)
  record : Payload × RunState × List LogEntry
  persistOk : Bool
  events : List Event

/-- LangGraphAgent.run: state starts as {"payload": dict(input)}; on normal
completion persist and return (final state, logs); on an exception append the
error log line, persist the partial state, and re-raise. _persist_run
swallows its own failure (pfail), which therefore never changes the result. -/
def runAgent (env : ExtEnv) (pfail : Bool) (stages : List Stage) (input : Payload)
    (sim : Option String) : RunResult :=
  match stageLoop env input sim stages { payload := input } [] {} with
  | (Except.ok (s, logs), w) =>
    { result := Except.ok (s, logs)
      record := (input, s, logs)
      persistOk := !pfail
      events := w.events ++ [Event.persist (!pfail)] }
  | (Except.error (e, s, logs), w) =>
    { result := Except.error e
      record := (input, s, logs ++ [LogEntry.errorLine e])
      persistOk := !pfail
      events := w.events ++ [Event.persist (!pfail)] }

/-! ### Capability client retry wrapper (src/app/mcp/clients.py) -/

/-- What one HTTP attempt inside BaseMCPClient.call produces: a
transport-class exception from the post, or a response with a status code
and body. -/
inductive AttemptOutcome where
  | transport (msg : String)
  | response (status : Nat) (body : Resp)
deriving Repr, DecidableEq

/-- The tenacity loop of BaseMCPClient.call, attempt number n (1-based),
with structural fuel (mcpCall supplies fuel = maxAttempts, which the n <
maxAttempts guard never exhausts). Per attempt: a response with status >=
500 raises MCPClientError at once (MCPClientError is not in the
retry_if_exception_type classes, so it is not retried); any other response
is returned; a transport-class exception is retried while n < maxAttempts
and re-raised as-is once the stop condition holds (reraise=True). -/
def mcpAux (maxAttempts : Nat) (outcomes : Nat → AttemptOutcome) :
    Nat → Nat → Nat × Except CallErr Resp
  | 0, n =>
    match outcomes (n - 1) with
    | AttemptOutcome.response c b =>
      if 500 ≤ c then (n, Except.error (CallErr.clientError c)) else (n, Except.ok b)
    | AttemptOutcome.transport m => (n, Except.error (CallErr.transport m))
  | fuel + 1, n =>
    match outcomes (n - 1) with
    | AttemptOutcome.response c b =>
      if 500 ≤ c then (n, Except.error (CallErr.clientError c)) else (n, Except.ok b)
    | AttemptOutcome.transport m =>
      if n < maxAttempts then mcpAux maxAttempts outcomes fuel (n + 1)
      else (n, Except.error (CallErr.transport m))

/-- BaseMCPClient.call over the outcomes of its successive HTTP attempts:
returns the number of attempts made and the call's result. -/
def mcpCall (maxAttempts : Nat) (outcomes : Nat → AttemptOutcome) :
    Nat × Except CallErr Resp :=
  mcpAux maxAttempts outcomes maxAttempts 1

/-- Whether a finished call raised the client's own MCPClientError (the only
error class of clients.py, the one a terminal, retries-distinguishing error
would have to be) rather than a transport-class exception or a success. -/
def raisedClientError : Except CallErr Resp → Bool
  | Except.error (CallErr.clientError _) => true
  | _ => false

/-! ### Trace helpers -/

/-- The handler-invocation subsequence of an event trace, in order. -/
def invocations (evs : List Event) : List String :=
  evs.filterMap (fun e => match e with | Event.invoke n => some n | _ => none)

/-- How many capability calls to a given operation a trace contains. -/
def extCallCount (nm : String) (evs : List Event) : Nat :=
  (evs.filter (fun e => match e with | Event.extCall n _ => n == nm | _ => false)).length

/-- The clamp of the specification. -/
def pyClamp (lo hi x : Int) : Int := max lo (min hi x)

/-! ### Basic lemmas about traces and the registry -/

theorem invocations_append (l1 l2 : List Event) :
    invocations (l1 ++ l2) = invocations l1 ++ invocations l2 := by
  simp [invocations]

theorem extCallCount_append (nm : String) (l1 l2 : List Event) :
    extCallCount nm (l1 ++ l2) = extCallCount nm l1 + extCallCount nm l2 := by
  simp [extCallCount, List.filter_append]

/-- Under an always-answering oracle, one capability call returns the next
oracle response and records exactly its extCall event. -/
theorem doCall_ok {env : ExtEnv} (hok : okOracle env) (nm : String) (arg : CallArg)
    (w : WState) :
    ∃ r, doCall env nm arg w =
      (Except.ok r,
        { w with callIdx := w.callIdx + 1, events := w.events ++ [Event.extCall nm arg] }) := by
  obtain ⟨r, hr⟩ := hok w.callIdx
  exact ⟨r, by simp [doCall, hr]⟩

/-- A handler is benign: it returns ok, only appends events, and records no
invoke event itself (invoke events are the engine's). -/
def HOk (env : ExtEnv) (fn : Handler) : Prop :=
  ∀ s ex w, ∃ r s2 w2 evs, fn env s ex w = (Except.ok (r, s2), w2) ∧
    w2.events = w.events ++ evs ∧ invocations evs = []

theorem accept_payload_hok (env : ExtEnv) : HOk env accept_payload := by
  intro s ex w
  exact ⟨_, _, w, [], rfl, by simp, rfl⟩

theorem parse_request_text_hok (env : ExtEnv) : HOk env parse_request_text := by
  intro s ex w
  exact ⟨_, _, w, [], rfl, by simp, rfl⟩

theorem extract_entities_hok {env : ExtEnv} (hok : okOracle env) :
    HOk env extract_entities := by
  intro s ex w
  obtain ⟨r, hr⟩ := doCall_ok hok "extract_entities" (CallArg.payload s.payload) w
  unfold extract_entities
  rw [hr]
  exact ⟨_, _, _, [Event.extCall "extract_entities" (CallArg.payload s.payload)],
    rfl, by simp, rfl⟩

theorem normalize_fields_hok (env : ExtEnv) : HOk env normalize_fields := by
  intro s ex w
  exact ⟨_, _, w, [], rfl, by simp, rfl⟩

theorem enrich_records_hok {env : ExtEnv} (hok : okOracle env) :
    HOk env enrich_records := by
  intro s ex w
  obtain ⟨r, hr⟩ := doCall_ok hok "enrich_records" (CallArg.payload s.payload) w
  unfold enrich_records
  rw [hr]
  exact ⟨_, _, _, [Event.extCall "enrich_records" (CallArg.payload s.payload)],
    rfl, by simp, rfl⟩

theorem add_flags_calculations_hok (env : ExtEnv) : HOk env add_flags_calculations := by
  intro s ex w
  exact ⟨_, _, w, [], rfl, by simp, rfl⟩

theorem clarify_question_hok {env : ExtEnv} (hok : okOracle env) :
    HOk env clarify_question := by
  intro s ex w
  obtain ⟨r, hr⟩ := doCall_ok hok "clarify_question" (CallArg.clarify ex.missing_fields s.payload) w
  unfold clarify_question
  rw [hr]
  exact ⟨_, _, _, [Event.extCall "clarify_question" (CallArg.clarify ex.missing_fields s.payload)],
    rfl, by simp, rfl⟩

theorem extract_answer_ext_ok {env : ExtEnv} (hok : okOracle env) (s : RunState) (w : WState) :
    ∃ r s2 w2, extract_answer_ext env s w = (Except.ok (r, s2), w2) ∧
      w2.events = w.events ++ [Event.extCall "extract_answer" (CallArg.payload s.payload)] := by
  obtain ⟨r, hr⟩ := doCall_ok hok "extract_answer" (CallArg.payload s.payload) w
  unfold extract_answer_ext
  rw [hr]
  exact ⟨_, _, _, rfl, by simp⟩

theorem extract_answer_hok {env : ExtEnv} (hok : okOracle env) :
    HOk env extract_answer := by
  intro s ex w
  unfold extract_answer
  cases hsim : pyTruthy ex.simulate_human_answer with
  | true =>
    rw [if_pos rfl]
    exact ⟨_, _, w, [], rfl, by simp, rfl⟩
  | false =>
    rw [if_neg (by simp)]
    obtain ⟨r, s2, w2, heq, hev⟩ := extract_answer_ext_ok hok s w
    exact ⟨r, s2, w2, [Event.extCall "extract_answer" (CallArg.payload s.payload)], heq, hev, rfl⟩

theorem store_answer_hok (env : ExtEnv) : HOk env store_answer := by
  intro s ex w
  exact ⟨_, _, w, [], rfl, by simp, rfl⟩

theorem knowledge_base_search_hok {env : ExtEnv} (hok : okOracle env) :
    HOk env knowledge_base_search := by
  intro s ex w
  obtain ⟨r, hr⟩ := doCall_ok hok "knowledge_base_search" (CallArg.kbQuery s.payload.query) w
  unfold knowledge_base_search
  rw [hr]
  exact ⟨_, _, _, [Event.extCall "knowledge_base_search" (CallArg.kbQuery s.payload.query)],
    rfl, by simp, rfl⟩

theorem store_data_hok (env : ExtEnv) : HOk env store_data := by
  intro s ex w
  exact ⟨_, _, w, [], rfl, by simp, rfl⟩

theorem solution_evaluation_hok (env : ExtEnv) : HOk env solution_evaluation := by
  intro s ex w
  exact ⟨_, _, _, [], rfl, by simp, rfl⟩

theorem escalation_decision_hok {env : ExtEnv} (hok : okOracle env) :
    HOk env escalation_decision := by
  intro s ex w
  unfold escalation_decision
  by_cases h : ((s.decision.getD Decision.empty).score.getD 100) < 90
  · rw [if_pos h]
    obtain ⟨r, hr⟩ := doCall_ok hok "escalation_decision" (CallArg.payload s.payload) w
    rw [hr]
    cases hd : s.decision with
    | some d =>
      exact ⟨_, _, _, [Event.extCall "escalation_decision" (CallArg.payload s.payload)],
        rfl, by simp, rfl⟩
    | none =>
      rw [hd] at h
      simp [Decision.empty] at h
  · rw [if_neg h]
    exact ⟨_, _, w, [], rfl, by simp, rfl⟩

theorem update_payload_hok (env : ExtEnv) : HOk env update_payload := by
  intro s ex w
  exact ⟨_, _, _, [], rfl, by simp, rfl⟩

theorem update_ticket_hok {env : ExtEnv} (hok : okOracle env) : HOk env update_ticket := by
  intro s ex w
  obtain ⟨r, hr⟩ := doCall_ok hok "update_ticket"
    (CallArg.ticketUpdate s.payload.ticket_id
      { status := "in_progress", priority := s.payload.priority,
        assigned_to := ((s.decision.getD Decision.empty).escalated_to).getD none }) w
  simp only [update_ticket]
  rw [hr]
  exact ⟨_, _, _, [Event.extCall "update_ticket"
      (CallArg.ticketUpdate s.payload.ticket_id
        { status := "in_progress", priority := s.payload.priority,
          assigned_to := ((s.decision.getD Decision.empty).escalated_to).getD none })],
    rfl, by simp, rfl⟩

theorem close_ticket_hok {env : ExtEnv} (hok : okOracle env) : HOk env close_ticket := by
  intro s ex w
  unfold close_ticket
  by_cases h : 90 ≤ ((s.decision.getD Decision.empty).score.getD 0)
  · rw [if_pos h]
    obtain ⟨r, hr⟩ := doCall_ok hok "close_ticket" (CallArg.ticketClose s.payload.ticket_id) w
    rw [hr]
    exact ⟨_, _, _, [Event.extCall "close_ticket" (CallArg.ticketClose s.payload.ticket_id)],
      rfl, by simp, rfl⟩
  · rw [if_neg h]
    exact ⟨_, _, w, [], rfl, by simp, rfl⟩

theorem response_generation_hok (env : ExtEnv) : HOk env response_generation := by
  intro s ex w
  exact ⟨_, _, w, [], rfl, by simp, rfl⟩

theorem execute_api_calls_hok {env : ExtEnv} (hok : okOracle env) :
    HOk env execute_api_calls := by
  intro s ex w
  obtain ⟨r, hr⟩ := doCall_ok hok "execute_api_calls" (CallArg.payload s.payload) w
  unfold execute_api_calls
  rw [hr]
  exact ⟨_, _, _, [Event.extCall "execute_api_calls" (CallArg.payload s.payload)],
    rfl, by simp, rfl⟩

theorem trigger_notifications_hok {env : ExtEnv} (hok : okOracle env) :
    HOk env trigger_notifications := by
  intro s ex w
  obtain ⟨r, hr⟩ := doCall_ok hok "trigger_notifications" (CallArg.payload s.payload) w
  unfold trigger_notifications
  rw [hr]
  exact ⟨_, _, _, [Event.extCall "trigger_notifications" (CallArg.payload s.payload)],
    rfl, by simp, rfl⟩

theorem output_payload_hok (env : ExtEnv) : HOk env output_payload := by
  intro s ex w
  exact ⟨_, _, w, [], rfl, by simp, rfl⟩

/-- Every registered handler is benign under an always-answering oracle. -/
theorem lookup_HOk {env : ExtEnv} (hok : okOracle env) (nm : String) (fn : Handler)
    (h : ABILITY_LOOKUP nm = some fn) : HOk env fn := by
  unfold ABILITY_LOOKUP at h
  by_cases c1 : nm = "accept_payload"
  · rw [if_pos c1] at h; injection h with h2; subst h2; exact accept_payload_hok env
  rw [if_neg c1] at h
  by_cases c2 : nm = "parse_request_text"
  · rw [if_pos c2] at h; injection h with h2; subst h2; exact parse_request_text_hok env
  rw [if_neg c2] at h
  by_cases c3 : nm = "extract_entities"
  · rw [if_pos c3] at h; injection h with h2; subst h2; exact extract_entities_hok hok
  rw [if_neg c3] at h
  by_cases c4 : nm = "normalize_fields"
  · rw [if_pos c4] at h; injection h with h2; subst h2; exact normalize_fields_hok env
  rw [if_neg c4] at h
  by_cases c5 : nm = "enrich_records"
  · rw [if_pos c5] at h; injection h with h2; subst h2; exact enrich_records_hok hok
  rw [if_neg c5] at h
  by_cases c6 : nm = "add_flags_calculations"
  · rw [if_pos c6] at h; injection h with h2; subst h2; exact add_flags_calculations_hok env
  rw [if_neg c6] at h
  by_cases c7 : nm = "clarify_question"
  · rw [if_pos c7] at h; injection h with h2; subst h2; exact clarify_question_hok hok
  rw [if_neg c7] at h
  by_cases c8 : nm = "extract_answer"
  · rw [if_pos c8] at h; injection h with h2; subst h2; exact extract_answer_hok hok
  rw [if_neg c8] at h
  by_cases c9 : nm = "store_answer"
  · rw [if_pos c9] at h; injection h with h2; subst h2; exact store_answer_hok env
  rw [if_neg c9] at h
  by_cases c10 : nm = "knowledge_base_search"
  · rw [if_pos c10] at h; injection h with h2; subst h2; exact knowledge_base_search_hok hok
  rw [if_neg c10] at h
  by_cases c11 : nm = "store_data"
  · rw [if_pos c11] at h; injection h with h2; subst h2; exact store_data_hok env
  rw [if_neg c11] at h
  by_cases c12 : nm = "solution_evaluation"
  · rw [if_pos c12] at h; injection h with h2; subst h2; exact solution_evaluation_hok env
  rw [if_neg c12] at h
  by_cases c13 : nm = "escalation_decision"
  · rw [if_pos c13] at h; injection h with h2; subst h2; exact escalation_decision_hok hok
  rw [if_neg c13] at h
  by_cases c14 : nm = "update_payload"
  · rw [if_pos c14] at h; injection h with h2; subst h2; exact update_payload_hok env
  rw [if_neg c14] at h
  by_cases c15 : nm = "update_ticket"
  · rw [if_pos c15] at h; injection h with h2; subst h2; exact update_ticket_hok hok
  rw [if_neg c15] at h
  by_cases c16 : nm = "close_ticket"
  · rw [if_pos c16] at h; injection h with h2; subst h2; exact close_ticket_hok hok
  rw [if_neg c16] at h
  by_cases c17 : nm = "response_generation"
  · rw [if_pos c17] at h; injection h with h2; subst h2; exact response_generation_hok env
  rw [if_neg c17] at h
  by_cases c18 : nm = "execute_api_calls"
  · rw [if_pos c18] at h; injection h with h2; subst h2; exact execute_api_calls_hok hok
  rw [if_neg c18] at h
  by_cases c19 : nm = "trigger_notifications"
  · rw [if_pos c19] at h; injection h with h2; subst h2; exact trigger_notifications_hok hok
  rw [if_neg c19] at h
  by_cases c20 : nm = "output_payload"
  · rw [if_pos c20] at h; injection h with h2; subst h2; exact output_payload_hok env
  rw [if_neg c20] at h
  exact Option.noConfusion h

/-- The score does not depend on the event trace, only on the rng counter. -/
theorem scoreVal_events (env : ExtEnv) (s : RunState) (w : WState) (evts : List Event) :
    scoreVal env s { w with events := evts } = scoreVal env s w := rfl

/-- The ability loop of a deterministic/human stage, under an
always-answering oracle: it returns ok, logs grow monotonically, every
unresolved ability gets its missing-implementation entry, and the recorded
invocation order is exactly the declared order restricted to resolved
names. -/
theorem execAbilities_ok {env : ExtEnv} (hok : okOracle env) (input : Payload)
    (sim : Option String) (l : List StageAbility) :
    ∀ (s : RunState) (logs : List LogEntry) (w : WState),
    ∃ s2 logs2 w2,
      execAbilities env input sim l s logs w = (Except.ok (s2, logs2), w2) ∧
      (∀ x, x ∈ logs → x ∈ logs2) ∧
      (∀ a, a ∈ l → ABILITY_LOOKUP a.name = none → LogEntry.missingImpl a.name ∈ logs2) ∧
      invocations w2.events = invocations w.events ++
        l.filterMap (fun a => if (ABILITY_LOOKUP a.name).isSome then some a.name else none) := by
  induction l with
  | nil =>
    intro s logs w
    exact ⟨s, logs, w, rfl, fun x hx => hx, by simp, by simp⟩
  | cons a rest ih =>
    intro s logs w
    cases hl : ABILITY_LOOKUP a.name with
    | none =>
      obtain ⟨s2, logs2, w2, heq, hmono, hmiss, hinv⟩ :=
        ih s ((logs ++ [LogEntry.abilityMarker a.name]) ++ [LogEntry.missingImpl a.name]) w
      refine ⟨s2, logs2, w2, ?_, ?_, ?_, ?_⟩
      · simp only [execAbilities, hl]
        exact heq
      · intro x hx; exact hmono x (by simp [hx])
      · intro b hb hn
        rcases List.mem_cons.mp hb with hb1 | hb2
        · subst hb1; exact hmono _ (by simp)
        · exact hmiss b hb2 hn
      · rw [hinv]
        simp [hl]
    | some fn =>
      obtain ⟨r, s1, w1, evs, hcall, hev, hinvevs⟩ :=
        lookup_HOk hok a.name fn hl s (abilityExtra input sim a.name)
          { w with events := w.events ++ [Event.invoke a.name] }
      obtain ⟨s2, logs2, w2, heq, hmono, hmiss, hinv⟩ :=
        ih s1 ((logs ++ [LogEntry.abilityMarker a.name]) ++ [LogEntry.resLine r]) w1
      refine ⟨s2, logs2, w2, ?_, ?_, ?_, ?_⟩
      · simp only [execAbilities, hl, callHandler]
        rw [hcall]
        exact heq
      · intro x hx; exact hmono x (by simp [hx])
      · intro b hb hn
        rcases List.mem_cons.mp hb with hb1 | hb2
        · subst hb1; rw [hl] at hn; exact Option.noConfusion hn
        · exact hmiss b hb2 hn
      · rw [hinv, hev]
        simp only [invocations] at hinvevs
        simp [invocations_append, hl, invocations, hinvevs]

/-- The fallback path of an unknown exec_rule returns ok under an
always-answering oracle, with monotone logs. -/
theorem execFallback_ok {env : ExtEnv} (hok : okOracle env) (l : List StageAbility) :
    ∀ (s : RunState) (logs : List LogEntry) (w : WState),
    ∃ s2 logs2 w2,
      execFallback env l s logs w = (Except.ok (s2, logs2), w2) ∧
      (∀ x, x ∈ logs → x ∈ logs2) := by
  induction l with
  | nil => intro s logs w; exact ⟨s, logs, w, rfl, fun x hx => hx⟩
  | cons a rest ih =>
    intro s logs w
    cases hl : ABILITY_LOOKUP a.name with
    | none =>
      obtain ⟨s2, logs2, w2, heq, hmono⟩ := ih s logs w
      refine ⟨s2, logs2, w2, ?_, hmono⟩
      simp only [execFallback, hl]
      exact heq
    | some fn =>
      obtain ⟨r, s1, w1, evs, hcall, hev, hinvevs⟩ :=
        lookup_HOk hok a.name fn hl s {} { w with events := w.events ++ [Event.invoke a.name] }
      obtain ⟨s2, logs2, w2, heq, hmono⟩ := ih s1 (logs ++ [LogEntry.fallbackRes a.name r]) w1
      refine ⟨s2, logs2, w2, ?_, ?_⟩
      · simp only [execFallback, hl, callHandler]
        rw [hcall]
        exact heq
      · intro x hx; exact hmono x (by simp [hx])

/-- The decision protocol, under an always-answering oracle: it returns ok,
logs grow monotonically, the invocation trace is scoring, then escalation
exactly when the produced score is below 90, then the decision recording,
and the final state carries the produced score. -/
theorem execDecide_spec {env : ExtEnv} (hok : okOracle env) (s : RunState)
    (logs : List LogEntry) (w : WState) :
    ∃ s2 logs2 w2,
      execDecide env s logs w = (Except.ok (s2, logs2), w2) ∧
      (∀ x, x ∈ logs → x ∈ logs2) ∧
      invocations w2.events = invocations w.events ++ ["solution_evaluation"] ++
        (if scoreVal env s w < 90 then ["escalation_decision"] else []) ++
        ["update_payload"] ∧
      (s2.decision.getD Decision.empty).score = some (scoreVal env s w) := by
  obtain ⟨r2, hr2⟩ := hok w.callIdx
  by_cases hv : scoreVal env s w < 90
  · simp only [execDecide, callHandler, solution_evaluation, scoreVal_events,
      escalation_decision, update_payload, doCall, Option.getD_some, hr2, if_pos hv]
    refine ⟨_, _, _, rfl, ?_, ?_, ?_⟩
    · intro x hx; simp [hx]
    · simp [invocations_append, invocations]
    · simp
  · simp only [execDecide, callHandler, solution_evaluation, scoreVal_events,
      update_payload, Option.getD_some, if_neg hv]
    refine ⟨_, _, _, rfl, ?_, ?_, ?_⟩
    · intro x hx; simp [hx]
    · simp [invocations_append, invocations]
    · simp

/-- One stage, under an always-answering oracle: returns ok, logs grow
monotonically, and for deterministic/human stages every unresolved ability
leaves its missing-implementation entry. -/
theorem execStage_ok {env : ExtEnv} (hok : okOracle env) (input : Payload)
    (sim : Option String) (st : Stage) (s : RunState) (logs : List LogEntry) (w : WState) :
    ∃ s2 logs2 w2,
      execStage env input sim st s logs w = (Except.ok (s2, logs2), w2) ∧
      (∀ x, x ∈ logs → x ∈ logs2) ∧
      ((st.mode = "deterministic" ∨ st.mode = "human") →
        ∀ a, a ∈ st.abilities → ABILITY_LOOKUP a.name = none →
          LogEntry.missingImpl a.name ∈ logs2) := by
  unfold execStage
  by_cases h1 : st.mode = "deterministic" ∨ st.mode = "human"
  · rw [if_pos h1]
    obtain ⟨s2, logs2, w2, heq, hmono, hmiss, _⟩ :=
      execAbilities_ok hok input sim st.abilities s
        (logs ++ [LogEntry.stageHeader st.name st.mode]) w
    exact ⟨s2, logs2, w2, heq, fun x hx => hmono x (by simp [hx]),
      fun _ a ha hn => hmiss a ha hn⟩
  · rw [if_neg h1]
    by_cases h2 : st.mode = "non-deterministic"
    · rw [if_pos h2]
      by_cases h3 : st.exec_rule = some "score_then_maybe_escalate"
      · rw [if_pos h3]
        obtain ⟨s2, logs2, w2, heq, hmono, _, _⟩ :=
          execDecide_spec hok s (logs ++ [LogEntry.stageHeader st.name st.mode]) w
        exact ⟨s2, logs2, w2, heq, fun x hx => hmono x (by simp [hx]),
          fun hc => absurd hc h1⟩
      · rw [if_neg h3]
        obtain ⟨s2, logs2, w2, heq, hmono⟩ :=
          execFallback_ok hok st.abilities s
            (logs ++ [LogEntry.stageHeader st.name st.mode]) w
        exact ⟨s2, logs2, w2, heq, fun x hx => hmono x (by simp [hx]),
          fun hc => absurd hc h1⟩
    · rw [if_neg h2]
      exact ⟨s, _, w, rfl, fun x hx => by simp [hx], fun hc => absurd hc h1⟩

/-- The stage loop, under an always-answering oracle: the run completes,
logs grow monotonically, and every unresolved ability of any
deterministic/human stage leaves its missing-implementation entry in the
final logs. -/
theorem stageLoop_ok {env : ExtEnv} (hok : okOracle env) (input : Payload)
    (sim : Option String) (stages : List Stage) :
    ∀ (s : RunState) (logs : List LogEntry) (w : WState),
    ∃ s2 logs2 w2,
      stageLoop env input sim stages s logs w = (Except.ok (s2, logs2), w2) ∧
      (∀ x, x ∈ logs → x ∈ logs2) ∧
      (∀ st, st ∈ stages → (st.mode = "deterministic" ∨ st.mode = "human") →
        ∀ a, a ∈ st.abilities → ABILITY_LOOKUP a.name = none →
          LogEntry.missingImpl a.name ∈ logs2) := by
  induction stages with
  | nil =>
    intro s logs w
    exact ⟨s, logs, w, rfl, fun x hx => hx, by simp⟩
  | cons st rest ih =>
    intro s logs w
    obtain ⟨s1, logs1, w1, heq1, hmono1, hmiss1⟩ := execStage_ok hok input sim st s logs w
    obtain ⟨s2, logs2, w2, heq2, hmono2, hmiss2⟩ := ih s1 logs1 w1
    refine ⟨s2, logs2, w2, ?_, fun x hx => hmono2 x (hmono1 x hx), ?_⟩
    · simp only [stageLoop, heq1]
      exact heq2
    · intro st2 hst2 hmode a ha hn
      rcases List.mem_cons.mp hst2 with hst2a | hst2b
      · subst hst2a
        exact hmono2 _ (hmiss1 hmode a ha hn)
      · exact hmiss2 st2 hst2b hmode a ha hn

/-! ### Concrete fixtures used by witnesses and counterexamples -/

/-- An environment whose capability calls always return an empty response,
with zero jitter and a constant clock. -/
def envOk : ExtEnv := { calls := fun _ => Except.ok {}, jitter := fun _ => 0, clock := fun _ => 0 }

theorem envOk_oracle : okOracle envOk := fun _ => ⟨{}, rfl⟩

/-- An environment whose capability calls always raise a transport error. -/
def envErr : ExtEnv :=
  { calls := fun _ => Except.error (CallErr.transport "boom")
    jitter := fun _ => 0, clock := fun _ => 0 }

/-- The sample input payload of the specification. -/
def inp0 : Payload :=
  { query := some "invoice INV-9876 is delayed", priority := some "high",
    ticket_id := some "tckt-1" }

/-- HTTP attempts that always yield a 500 response. -/
def always500 : Nat → AttemptOutcome := fun _ => AttemptOutcome.response 500 {}

/-- HTTP attempts that always raise a transport error. -/
def alwaysTransport : Nat → AttemptOutcome := fun _ => AttemptOutcome.transport "connection reset"

/-- HTTP attempts: one transport failure, then a 200 response. -/
def failThenOk : Nat → AttemptOutcome := fun n =>
  if n = 0 then AttemptOutcome.transport "connection reset" else AttemptOutcome.response 200 {}

/-- The DECIDE stage of STAGE_CONFIG. -/
def decideStage : Stage :=
  { name := "DECIDE", mode := "non-deterministic",
    abilities := [⟨"solution_evaluation", "COMMON", "Score solutions"⟩,
                  ⟨"escalation_decision", "ATLAS", "Escalate if needed"⟩,
                  ⟨"update_payload", "COMMON", "Record decision"⟩],
    exec_rule := some "score_then_maybe_escalate" }

/-- The UPDATE stage of STAGE_CONFIG. -/
def updateStage : Stage :=
  { name := "UPDATE", mode := "deterministic",
    abilities := [⟨"update_ticket", "ATLAS", "Update ticket"⟩,
                  ⟨"close_ticket", "ATLAS", "Close ticket"⟩] }

/-- A stage whose single declared ability has no registered handler. -/
def missingStage : Stage :=
  { name := "X", mode := "deterministic",
    abilities := [⟨"no_such_ability", "COMMON", "missing"⟩] }

theorem decideStage_mem : decideStage ∈ STAGE_CONFIG := by
  simp [STAGE_CONFIG, decideStage]

theorem updateStage_mem : updateStage ∈ STAGE_CONFIG := by
  simp [STAGE_CONFIG, updateStage]

theorem lookup_update_ticket : ABILITY_LOOKUP "update_ticket" = some update_ticket := rfl

theorem lookup_close_ticket : ABILITY_LOOKUP "close_ticket" = some close_ticket := rfl

/-! ### Claims -/

/-- C2: for every state, solution_evaluation stores decision.score equal to
clamp(0, 100, 70 + min(20, kbHits*10) − (10 if priority == "HIGH" else 0) +
jitter), with kbHits the length of kb.hits, and for every jitter in [-3, 3]
the stored score lies in [0, 100]. -/
theorem c2_solution_evaluation_score (env : ExtEnv) (s : RunState) (ex : Extra) (w : WState)
    (h1 : -3 ≤ env.jitter w.rngIdx) (h2 : env.jitter w.rngIdx ≤ 3) :
    solution_evaluation env s ex w =
      (Except.ok ({ score := some (scoreVal env s w) },
        { s with decision := some { s.decision.getD Decision.empty with score := some (scoreVal env s w) } }),
       { w with rngIdx := w.rngIdx + 1 }) ∧
    scoreVal env s w = pyClamp 0 100
      (70 + min 20 (((s.kb.getD []).length : Int) * 10)
        - (if s.payload.priority = some "HIGH" then 10 else 0) + env.jitter w.rngIdx) ∧
    0 ≤ scoreVal env s w ∧ scoreVal env s w ≤ 100 := by
  refine ⟨rfl, ?_, ?_, ?_⟩
  · simp only [scoreVal, pyClamp]
    by_cases hp : s.payload.priority = some "HIGH"
    · simp only [if_pos hp]
    · simp only [if_neg hp]; omega
  · simp only [scoreVal]
    by_cases hp : s.payload.priority = some "HIGH"
    · simp only [if_pos hp]; omega
    · simp only [if_neg hp]; omega
  · simp only [scoreVal]
    by_cases hp : s.payload.priority = some "HIGH"
    · simp only [if_pos hp]; omega
    · simp only [if_neg hp]; omega

theorem c2_witness :
    (-3 : Int) ≤ envOk.jitter 0 ∧ envOk.jitter 0 ≤ 3 ∧
    0 ≤ scoreVal envOk { payload := inp0 } {} ∧ scoreVal envOk { payload := inp0 } {} ≤ 100 :=
  ⟨by decide, by decide,
   (c2_solution_evaluation_score envOk { payload := inp0 } {} {} (by decide) (by decide)).2.2.1,
   (c2_solution_evaluation_score envOk { payload := inp0 } {} {} (by decide) (by decide)).2.2.2⟩

/-- C10: escalation_decision re-checks the score itself: invoked with an
effective score of at least 90 (an absent score defaults to 100), it makes
no capability call, changes nothing (so escalated_to stays unset), and
returns status "not_escalated". -/
theorem c10_escalation_guard (env : ExtEnv) (s : RunState) (ex : Extra) (w : WState)
    (h : 90 ≤ (s.decision.getD Decision.empty).score.getD 100) :
    escalation_decision env s ex w =
      (Except.ok ({ status := some "not_escalated" }, s), w) := by
  simp only [escalation_decision]
  rw [if_neg (by omega)]

theorem c10_witness :
    escalation_decision envOk { payload := inp0 } {} {} =
      (Except.ok ({ status := some "not_escalated" }, { payload := inp0 }), {}) :=
  c10_escalation_guard envOk { payload := inp0 } {} {} (by decide)

/-- C3 counterexample: with 3 attempts allowed, the very first 5xx response
already surfaces as MCPClientError after exactly one attempt — the 5xx
class is not retried, because MCPClientError is not among the
retry_if_exception_type classes (httpx.TransportError, httpx.RequestError). -/
theorem c3_counterexample :
    mcpCall 3 always500 = (1, Except.error (CallErr.clientError 500)) := rfl

/-- C3 (amended): a capability-call response with a 5xx status raises
MCPClientError, which is not classified as retryable, and propagates
immediately on the first such response regardless of the attempt budget. -/
theorem c3_server_error_not_retried (maxAttempts : Nat) (outcomes : Nat → AttemptOutcome)
    (c : Nat) (b : Resp) (h5 : 500 ≤ c) (h0 : outcomes 0 = AttemptOutcome.response c b) :
    mcpCall maxAttempts outcomes = (1, Except.error (CallErr.clientError c)) := by
  unfold mcpCall
  cases maxAttempts with
  | zero => simp [mcpAux, h0, if_pos h5]
  | succ k => simp [mcpAux, h0, if_pos h5]

theorem c3_witness :
    mcpCall 5 always500 = (1, Except.error (CallErr.clientError 500)) :=
  c3_server_error_not_retried 5 always500 500 {} (by decide) rfl

/-- Helper: with every attempt failing at transport level, the loop runs
exactly maxAttempts attempts and re-raises the transport error. -/
theorem mcpAux_allTransport (maxAttempts : Nat) (outcomes : Nat → AttemptOutcome) (m : String)
    (hall : ∀ k, outcomes k = AttemptOutcome.transport m) :
    ∀ fuel n, n + fuel = maxAttempts + 1 → 1 ≤ n → n ≤ maxAttempts →
      mcpAux maxAttempts outcomes fuel n =
        (maxAttempts, Except.error (CallErr.transport m)) := by
  intro fuel
  induction fuel with
  | zero => intro n h1 hn1 hn2; omega
  | succ f ih =>
    intro n h1 hn1 hn2
    simp only [mcpAux, hall]
    by_cases hn : n < maxAttempts
    · rw [if_pos hn]
      exact ih (n + 1) (by omega) (by omega) (by omega)
    · rw [if_neg hn]
      have hmax : n = maxAttempts := by omega
      rw [hmax]

/-- C4 counterexample: with maxAttempts = 3 and every attempt failing at
transport level, 3 attempts occur — but what is then raised is the original
transport (transient-class) exception, re-raised by tenacity's
reraise=True, not the client's MCPClientError: the "Retries exhausted"
raise after the loop is unreachable, so no terminal error distinguishing
exhaustion from a transient failure is raised. -/
theorem c4_counterexample :
    mcpCall 3 alwaysTransport = (3, Except.error (CallErr.transport "connection reset")) ∧
    raisedClientError (mcpCall 3 alwaysTransport).2 = false := ⟨rfl, rfl⟩

/-- C4 (amended): with maxAttempts = N (N ≥ 2) and an operation that always
fails at transport level, exactly N attempts occur and the last transient
transport error is re-raised as-is; with an operation failing once then
succeeding, exactly 2 attempts occur and the second attempt's response body
is returned. -/
theorem c4_retry_attempt_counts (attempts : Nat) (m : String) (b : Resp)
    (outsFail outsOnce : Nat → AttemptOutcome)
    (hN : 2 ≤ attempts)
    (hall : ∀ k, outsFail k = AttemptOutcome.transport m)
    (h0 : outsOnce 0 = AttemptOutcome.transport m)
    (h1 : outsOnce 1 = AttemptOutcome.response 200 b) :
    mcpCall attempts outsFail = (attempts, Except.error (CallErr.transport m)) ∧
    mcpCall attempts outsOnce = (2, Except.ok b) := by
  constructor
  · exact mcpAux_allTransport attempts outsFail m hall attempts 1 (by omega) le_rfl (by omega)
  · unfold mcpCall
    obtain ⟨k, rfl⟩ : ∃ k, attempts = k + 2 := ⟨attempts - 2, by omega⟩
    simp [mcpAux, h0, h1]

theorem c4_witness :
    mcpCall 3 alwaysTransport = (3, Except.error (CallErr.transport "connection reset")) ∧
    mcpCall 3 failThenOk = (2, Except.ok {}) :=
  c4_retry_attempt_counts 3 "connection reset" {} alwaysTransport failThenOk
    (by decide) (fun _ => rfl) rfl rfl

/-- C1: executing a stage whose exec_rule is "score_then_maybe_escalate"
(under an oracle in which every capability call answers) invokes the
escalation ability exactly when the score the scoring ability just produced
is below 90, and invokes the decision-recording ability update_payload
exactly once either way — the invocation trace of the stage is literally
[scoring] ++ (escalation when score < 90) ++ [recording]. -/
theorem c1_decide_stage_branching {env : ExtEnv} (hok : okOracle env) (input : Payload)
    (sim : Option String) (st : Stage) (s : RunState) (logs : List LogEntry) (w : WState)
    (hm : st.mode = "non-deterministic")
    (hr : st.exec_rule = some "score_then_maybe_escalate") :
    ∃ s2 logs2 w2,
      execStage env input sim st s logs w = (Except.ok (s2, logs2), w2) ∧
      invocations w2.events = invocations w.events ++ ["solution_evaluation"] ++
        (if scoreVal env s w < 90 then ["escalation_decision"] else []) ++
        ["update_payload"] ∧
      (s2.decision.getD Decision.empty).score = some (scoreVal env s w) := by
  obtain ⟨s2, logs2, w2, heq, _, hinv, hscore⟩ :=
    execDecide_spec hok s (logs ++ [LogEntry.stageHeader st.name st.mode]) w
  refine ⟨s2, logs2, w2, ?_, hinv, hscore⟩
  simp only [execStage]
  rw [if_neg (by rw [hm]; decide), if_pos hm, if_pos hr]
  exact heq

theorem c1_witness :
    ∃ s2 logs2 w2,
      execStage envOk inp0 none decideStage { payload := inp0 } [] {} =
        (Except.ok (s2, logs2), w2) ∧
      invocations w2.events = invocations ({} : WState).events ++ ["solution_evaluation"] ++
        (if scoreVal envOk { payload := inp0 } {} < 90 then ["escalation_decision"] else []) ++
        ["update_payload"] ∧
      (s2.decision.getD Decision.empty).score = some (scoreVal envOk { payload := inp0 } {}) :=
  c1_decide_stage_branching envOk_oracle inp0 none decideStage { payload := inp0 } [] {} rfl rfl

/-- C9: in a deterministic or human stage (under an oracle in which every
capability call answers), the recorded handler-invocation order is exactly
the declared ability order restricted to resolved names — so permuting the
declared list permutes the observed order identically. -/
theorem c9_declared_order {env : ExtEnv} (hok : okOracle env) (input : Payload)
    (sim : Option String) (st : Stage) (s : RunState) (logs : List LogEntry) (w : WState)
    (hm : st.mode = "deterministic" ∨ st.mode = "human") :
    ∃ s2 logs2 w2,
      execStage env input sim st s logs w = (Except.ok (s2, logs2), w2) ∧
      invocations w2.events = invocations w.events ++
        st.abilities.filterMap
          (fun a => if (ABILITY_LOOKUP a.name).isSome then some a.name else none) := by
  obtain ⟨s2, logs2, w2, heq, _, _, hinv⟩ :=
    execAbilities_ok hok input sim st.abilities s
      (logs ++ [LogEntry.stageHeader st.name st.mode]) w
  refine ⟨s2, logs2, w2, ?_, hinv⟩
  simp only [execStage]
  rw [if_pos hm]
  exact heq

theorem c9_witness :
    ∃ s2 logs2 w2,
      execStage envOk inp0 none updateStage { payload := inp0 } [] {} =
        (Except.ok (s2, logs2), w2) ∧
      invocations w2.events = invocations ({} : WState).events ++
        updateStage.abilities.filterMap
          (fun a => if (ABILITY_LOOKUP a.name).isSome then some a.name else none) :=
  c9_declared_order envOk_oracle inp0 none updateStage { payload := inp0 } [] {} (Or.inl rfl)

/-- C5: a run whose configuration references an ability name absent from
the registry (under an oracle in which every capability call answers) is
not aborted: it completes normally and its returned log contains the
missing-implementation entry naming that ability. -/
theorem c5_missing_ability_non_fatal {env : ExtEnv} (hok : okOracle env) (pfail : Bool)
    (stages : List Stage) (input : Payload) (sim : Option String) (st : Stage)
    (a : StageAbility) (hst : st ∈ stages)
    (hmode : st.mode = "deterministic" ∨ st.mode = "human")
    (ha : a ∈ st.abilities) (hmiss : ABILITY_LOOKUP a.name = none) :
    ∃ s logs, (runAgent env pfail stages input sim).result = Except.ok (s, logs) ∧
      LogEntry.missingImpl a.name ∈ logs := by
  obtain ⟨s2, logs2, w2, heq, _, hm2⟩ :=
    stageLoop_ok hok input sim stages { payload := input } [] {}
  refine ⟨s2, logs2, ?_, hm2 st hst hmode a ha hmiss⟩
  simp only [runAgent, heq]

theorem c5_witness :
    ∃ s logs, (runAgent envOk false [missingStage] inp0 none).result = Except.ok (s, logs) ∧
      LogEntry.missingImpl "no_such_ability" ∈ logs :=
  c5_missing_ability_non_fatal envOk_oracle false [missingStage] inp0 none missingStage
    ⟨"no_such_ability", "COMMON", "missing"⟩ (by simp) (Or.inl rfl)
    (by simp [missingStage]) rfl

/-- The external-call branch of extract_answer records its extCall event
whether the call succeeds or raises. -/
theorem extract_answer_ext_events (env : ExtEnv) (s : RunState) (w : WState) :
    (extract_answer_ext env s w).2.events =
      w.events ++ [Event.extCall "extract_answer" (CallArg.payload s.payload)] := by
  unfold extract_answer_ext doCall
  cases hc : env.calls w.callIdx <;> simp

/-- C6 counterexample: a run given the simulated human answer "" (a
supplied answer, but falsy in Python) still performs the external
extract_answer capability call, because the handler tests `if simulated:`
rather than `if simulated is not None:`. -/
theorem c6_counterexample :
    extCallCount "extract_answer"
      (runAgent envOk false STAGE_CONFIG inp0 (some "")).events = 1 := by
  rfl

/-- C6 (amended): given a non-empty simulated human answer, extract_answer
records exactly that string as the captured answer and performs no
capability call (state and counters are returned with no new event); the
external capability call happens exactly when the simulated answer is
absent or empty. -/
theorem c6_simulated_answer_verbatim (env : ExtEnv) (s : RunState) (ex : Extra) (w : WState) :
    (∀ v, v ≠ "" → ex.simulate_human_answer = some v →
      extract_answer env s ex w =
        (Except.ok ({ status := some "ok", answer := some v },
          { s with answers := some (s.answers.getD [] ++ [some v]) }), w)) ∧
    ((ex.simulate_human_answer = none ∨ ex.simulate_human_answer = some "") →
      extract_answer env s ex w = extract_answer_ext env s w ∧
      extCallCount "extract_answer" (extract_answer_ext env s w).2.events =
        extCallCount "extract_answer" w.events + 1) := by
  constructor
  · intro v hv hsim
    unfold extract_answer
    rw [hsim, if_pos (by simp [pyTruthy, hv])]
  · intro hfalsy
    have hpt : pyTruthy ex.simulate_human_answer = false := by
      rcases hfalsy with h | h <;> simp [pyTruthy, h]
    constructor
    · unfold extract_answer
      rw [if_neg (by simp [hpt])]
    · rw [extract_answer_ext_events, extCallCount_append]
      simp [extCallCount]

theorem c6_witness :
    extract_answer envOk { payload := inp0 }
        { simulate_human_answer := some "INV-9876, check billing cycle" } {} =
      (Except.ok ({ status := some "ok", answer := some "INV-9876, check billing cycle" },
        { payload := inp0, answers := some [some "INV-9876, check billing cycle"] }), {}) := by
  have h := (c6_simulated_answer_verbatim envOk { payload := inp0 }
      { simulate_human_answer := some "INV-9876, check billing cycle" } {}).1
      "INV-9876, check billing cycle" (by decide) rfl
  simpa using h

/-- C7: in the ticket-update stage (under an oracle in which every
capability call answers, with a decision score present), the update_ticket
capability call is made exactly once, with status "in_progress" and the
current priority and assignee; the close_ticket capability call is made,
and payload.status is set to "closed", exactly when the score is at least
90 — otherwise the state is left unchanged. -/
theorem c7_update_then_conditional_close {env : ExtEnv} (hok : okOracle env)
    (input : Payload) (sim : Option String) (s : RunState) (logs : List LogEntry)
    (w : WState) (d : Decision) (v : Int)
    (hd : s.decision = some d) (hs : d.score = some v) :
    ∃ s2 logs2 w2,
      execStage env input sim updateStage s logs w = (Except.ok (s2, logs2), w2) ∧
      extCallCount "update_ticket" w2.events = extCallCount "update_ticket" w.events + 1 ∧
      Event.extCall "update_ticket" (CallArg.ticketUpdate s.payload.ticket_id
        { status := "in_progress", priority := s.payload.priority,
          assigned_to := d.escalated_to.getD none }) ∈ w2.events ∧
      extCallCount "close_ticket" w2.events =
        extCallCount "close_ticket" w.events + (if 90 ≤ v then 1 else 0) ∧
      s2 = (if 90 ≤ v then { s with payload := { s.payload with status := some "closed" } }
            else s) := by
  obtain ⟨r1, hr1⟩ := hok w.callIdx
  obtain ⟨rc, hrc⟩ := hok (w.callIdx + 1)
  have hstage : execStage env input sim updateStage s logs w =
      execAbilities env input sim updateStage.abilities s
        (logs ++ [LogEntry.stageHeader "UPDATE" "deterministic"]) w := by
    simp [execStage, updateStage]
  rw [hstage]
  by_cases hv : 90 ≤ v
  · simp only [execAbilities, updateStage, lookup_update_ticket, lookup_close_ticket,
      callHandler, update_ticket, close_ticket, doCall, hd, hs, Option.getD_some,
      hr1, hrc, if_pos hv]
    refine ⟨_, _, _, rfl, ?_, ?_, ?_, ?_⟩
    · simp [extCallCount_append, extCallCount]
    · simp
    · simp [extCallCount_append, extCallCount, if_pos hv]
    · simp [if_pos hv]
  · simp only [execAbilities, updateStage, lookup_update_ticket, lookup_close_ticket,
      callHandler, update_ticket, close_ticket, doCall, hd, hs, Option.getD_some,
      hr1, hrc, if_neg hv]
    refine ⟨_, _, _, rfl, ?_, ?_, ?_, ?_⟩
    · simp [extCallCount_append, extCallCount]
    · simp
    · simp [extCallCount_append, extCallCount, if_neg hv]
    · simp [if_neg hv]

theorem c7_witness :
    ∃ s2 logs2 w2,
      execStage envOk inp0 none updateStage
          { payload := inp0, decision := some { score := some 95 } } [] {} =
        (Except.ok (s2, logs2), w2) ∧
      extCallCount "update_ticket" w2.events =
        extCallCount "update_ticket" ({} : WState).events + 1 ∧
      Event.extCall "update_ticket" (CallArg.ticketUpdate inp0.ticket_id
        { status := "in_progress", priority := inp0.priority,
          assigned_to := (Decision.escalated_to { score := some 95 }).getD none }) ∈ w2.events ∧
      extCallCount "close_ticket" w2.events =
        extCallCount "close_ticket" ({} : WState).events + (if (90 : Int) ≤ 95 then 1 else 0) ∧
      s2 = (if (90 : Int) ≤ 95 then
              { payload := { inp0 with status := some "closed" },
                decision := some { score := some 95 } }
            else { payload := inp0, decision := some { score := some 95 } }) :=
  c7_update_then_conditional_close envOk_oracle inp0 none
    { payload := inp0, decision := some { score := some 95 } } [] {}
    { score := some 95 } 95 rfl rfl

/-- C8: on any unhandled handler exception the engine stops (the stage loop
yields the exception with the partial state and logs), the run record handed
to persistence is built from that partial state with the error line
appended, exactly one persistence attempt happens, and the original
exception is re-raised; on normal completion the final state and logs are
returned after the persistence attempt; in both cases a failing persistence
call (pfail) never changes the result or the record. -/
theorem c8_exception_persist_reraise (env : ExtEnv) (pf pf2 : Bool) (stages : List Stage)
    (input : Payload) (sim : Option String) :
    (runAgent env pf stages input sim).result = (runAgent env pf2 stages input sim).result ∧
    (runAgent env pf stages input sim).record = (runAgent env pf2 stages input sim).record ∧
    (∀ e s logs w,
      stageLoop env input sim stages { payload := input } [] {} =
        (Except.error (e, s, logs), w) →
      (runAgent env pf stages input sim).result = Except.error e ∧
      (runAgent env pf stages input sim).record = (input, s, logs ++ [LogEntry.errorLine e]) ∧
      (runAgent env pf stages input sim).events = w.events ++ [Event.persist (!pf)]) ∧
    (∀ s logs w,
      stageLoop env input sim stages { payload := input } [] {} = (Except.ok (s, logs), w) →
      (runAgent env pf stages input sim).result = Except.ok (s, logs) ∧
      (runAgent env pf stages input sim).record = (input, s, logs) ∧
      (runAgent env pf stages input sim).events = w.events ++ [Event.persist (!pf)]) := by
  rcases hsl : stageLoop env input sim stages { payload := input } [] {} with ⟨res, wl⟩
  rcases res with ⟨e, s, logs⟩ | ⟨s, logs⟩
  · refine ⟨?_, ?_, ?_, ?_⟩
    · simp [runAgent, hsl]
    · simp [runAgent, hsl]
    · intro e2 s2 logs2 w2 h2
      simp only [Prod.mk.injEq, Except.error.injEq] at h2
      obtain ⟨⟨rfl, rfl, rfl⟩, rfl⟩ := h2
      refine ⟨?_, ?_, ?_⟩ <;> simp [runAgent, hsl]
    · intro s2 logs2 w2 h2
      simp at h2
  · refine ⟨?_, ?_, ?_, ?_⟩
    · simp [runAgent, hsl]
    · simp [runAgent, hsl]
    · intro e2 s2 logs2 w2 h2
      simp at h2
    · intro s2 logs2 w2 h2
      simp only [Prod.mk.injEq, Except.ok.injEq] at h2
      obtain ⟨⟨rfl, rfl⟩, rfl⟩ := h2
      refine ⟨?_, ?_, ?_⟩ <;> simp [runAgent, hsl]

theorem c8_witness :
    (runAgent envErr true STAGE_CONFIG inp0 none).result =
      (runAgent envErr false STAGE_CONFIG inp0 none).result ∧
    (runAgent envErr true STAGE_CONFIG inp0 none).result =
      Except.error (PyErr.mcp (CallErr.transport "boom")) := by
  refine ⟨(c8_exception_persist_reraise envErr true false STAGE_CONFIG inp0 none).1, ?_⟩
  exact ((c8_exception_persist_reraise envErr true false STAGE_CONFIG inp0 none).2.2.1
    _ _ _ _ rfl).1

end LGAgent
